import Mathlib

/-!
# Verification of the Grease Burger analytics server core

Shallow embedding of the server's ingestion / retention / aggregation
pipeline (`server.js`).  JavaScript strings are modelled as `List Char`,
JavaScript numbers as `JSNum` (NaN, the two infinities, or an exact
rational; the rational idealises the IEEE double), JavaScript values as
the inductive `JSValue`, and objects as insertion-ordered association
lists.  Fallible operations return `Option`/`Except`.
-/

namespace Slots

/-- Model of a JavaScript number: `NaN`, `±Infinity`, or a finite value.
Finite doubles are idealised as exact rationals. -/
inductive JSNum where
  | nan : JSNum
  | posInf : JSNum
  | negInf : JSNum
  | fin (q : ℚ) : JSNum
deriving DecidableEq

/-- Model of a JavaScript value as delivered by `express.json()`:
`undefined`, `null`, booleans, numbers, strings, arrays, and objects
(insertion-ordered key/value lists, as produced by `JSON.parse`). -/
inductive JSValue where
  | undefinedV : JSValue
  | null : JSValue
  | bool (b : Bool) : JSValue
  | num (n : JSNum) : JSValue
  | str (s : List Char) : JSValue
  | arr (xs : List JSValue) : JSValue
  | obj (fields : List (List Char × JSValue)) : JSValue

/-- The result of the JavaScript `typeof` operator (`typeof null`,
arrays and plain objects all give `"object"`). -/
inductive JSType where
  | undefinedT : JSType
  | booleanT : JSType
  | numberT : JSType
  | stringT : JSType
  | objectT : JSType
deriving DecidableEq

def jsTypeof : JSValue → JSType
  | .undefinedV => .undefinedT
  | .null => .objectT
  | .bool _ => .booleanT
  | .num _ => .numberT
  | .str _ => .stringT
  | .arr _ => .objectT
  | .obj _ => .objectT

/-- JavaScript truthiness (`!v` is `true` exactly when this is `false`). -/
def truthy : JSValue → Bool
  | .undefinedV => false
  | .null => false
  | .bool b => b
  | .num .nan => false
  | .num (.fin q) => decide (q ≠ 0)
  | .num _ => true
  | .str s => decide (s ≠ [])
  | .arr _ => true
  | .obj _ => true

/-- Own-property access `v[k]`; a missing property reads as `undefined`. -/
def getField (v : JSValue) (k : List Char) : JSValue :=
  match v with
  | .obj fields =>
    match fields.lookup k with
    | some x => x
    | none => .undefinedV
  | _ => .undefinedV

/-- `Object.keys`: own enumerable keys in insertion order; for an array
these are the decimal index strings. -/
def objectKeys : JSValue → List (List Char)
  | .obj fields => fields.map Prod.fst
  | .arr xs => (List.range xs.length).map (fun i => Nat.toDigits 10 i)
  | _ => []

/-! ## Sanitizer (`sanitize`, server.js lines 125-132) -/

/-- Characters removed by `sanitize`: angle brackets, both quotes,
ampersand, backslash, and the ASCII
control characters `0x00`-`0x1F` and `0x7F` (written by code point to
mirror the two regexes). -/
def isStripped (c : Char) : Bool :=
  c.toNat = 60 || c.toNat = 62 || c.toNat = 39 || c.toNat = 34 ||
    c.toNat = 38 || c.toNat = 92 || c.toNat ≤ 31 || c.toNat = 127

/-- The string path of `sanitize`: `str.slice(0, maxLength)` followed by
the two character-removing `replace` calls. -/
def sanitizeStr (s : List Char) (maxLength : Nat) : List Char :=
  (s.take maxLength).filter (fun c => !(isStripped c))

/-- `sanitize(str, maxLength)`: every non-string input maps to the empty
string, a string is truncated then stripped. -/
def sanitize (v : JSValue) (maxLength : Nat) : List Char :=
  match v with
  | .str s => sanitizeStr s maxLength
  | _ => []

theorem sanitizeStr_length_le (s : List Char) (m : Nat) :
    (sanitizeStr s m).length ≤ m := by
  calc (sanitizeStr s m).length ≤ (s.take m).length := List.length_filter_le _ _
    _ ≤ m := by simp

theorem sanitizeStr_not_stripped (s : List Char) (m : Nat) :
    ∀ c ∈ sanitizeStr s m, isStripped c = false := by
  intro c hc
  have := List.of_mem_filter hc
  simpa using this

theorem sanitizeStr_idem (s : List Char) (m : Nat) :
    sanitizeStr (sanitizeStr s m) m = sanitizeStr s m := by
  unfold sanitizeStr
  rw [List.take_of_length_le]
  · rw [List.filter_filter]
    simp
  · calc ((s.take m).filter (fun c => !(isStripped c))).length
        ≤ (s.take m).length := List.length_filter_le _ _
      _ ≤ m := by simp

/-! ## Numeric parsing (`parseFloat` semantics, used by `validateNumber`) -/

/-- Whitespace skipped by the JavaScript numeric parsers. -/
def isWS (c : Char) : Bool :=
  c.toNat = 32 || c.toNat = 9 || c.toNat = 10 || c.toNat = 13 ||
    c.toNat = 11 || c.toNat = 12 || c.toNat = 160

def isDigitCh (c : Char) : Bool := 48 ≤ c.toNat && c.toNat ≤ 57

def digitsToNat (ds : List Char) : Nat :=
  ds.foldl (fun acc c => acc * 10 + (c.toNat - 48)) 0

/-- An optional decimal exponent part `e`/`E`, optional sign, digits.
`none` when the suffix is not a well-formed exponent (in which case
`parseFloat` keeps only the mantissa prefix). -/
def parseExp (s : List Char) : Option Int :=
  match s with
  | c :: r =>
    if c = 'e' ∨ c = 'E' then
      let (sgn, r2) : Int × List Char :=
        match r with
        | d :: r3 => if d = '+' then (1, r3) else if d = '-' then (-1, r3) else (1, r)
        | [] => (1, [])
      let ds := r2.takeWhile isDigitCh
      if ds = [] then none else some (sgn * (digitsToNat ds : Int))
    else none
  | [] => none

/-- Magnitude of a decimal literal: digits, optional fraction, optional
exponent; `none` when no digit occurs on either side of the point. -/
def parseFloatMag (s : List Char) : Option ℚ :=
  let ip := s.takeWhile isDigitCh
  let r1 := s.drop ip.length
  let (fp, r2) : List Char × List Char :=
    match r1 with
    | c :: r => if c = '.' then (r.takeWhile isDigitCh, r.dropWhile isDigitCh) else ([], r1)
    | [] => ([], [])
  if ip = [] ∧ fp = [] then none
  else
    let base : ℚ := (digitsToNat ip : ℚ) + mkRat (digitsToNat fp) (10 ^ fp.length)
    some (match parseExp r2 with
      | some e => base * (10 : ℚ) ^ e
      | none => base)

/-- `parseFloat` on a string: leading whitespace, optional sign, then
the longest `Infinity`-or-decimal prefix; `NaN` when there is none.
Finite values are exact rationals (idealising the IEEE double). -/
def parseFloatStr (s : List Char) : JSNum :=
  let t := s.dropWhile isWS
  let (neg, t2) : Bool × List Char :=
    match t with
    | c :: r => if c = '-' then (true, r) else if c = '+' then (false, r) else (false, t)
    | [] => (false, [])
  if ("Infinity".toList).isPrefixOf t2 then (if neg then .negInf else .posInf)
  else
    match parseFloatMag t2 with
    | some q => .fin (if neg then -q else q)
    | none => .nan

/-- Decimal digit character. -/
def digitChar (n : Nat) : Char := Char.ofNat (48 + n)

/-- Fuel-bounded long division producing the fractional digits of
`r / d`; 40 digits are enough for every value this development
evaluates. -/
def fracDigits : Nat → Nat → Nat → List Char
  | 0, _, _ => []
  | _, 0, _ => []
  | fuel + 1, r, d => digitChar (r * 10 / d) :: fracDigits fuel (r * 10 % d) d

/-- `String(n)` for a number.  JavaScript prints the shortest decimal
that reparses to the same double; on the exact-rational idealisation we
print the (fuel-bounded) exact decimal expansion, which agrees on every
value a decimal literal can produce. -/
def jsNumToString : JSNum → List Char
  | .nan => "NaN".toList
  | .posInf => "Infinity".toList
  | .negInf => "-Infinity".toList
  | .fin q =>
    let sgn : List Char := if q < 0 then ['-'] else []
    let n := q.num.natAbs
    let r := n % q.den
    sgn ++ Nat.toDigits 10 (n / q.den) ++
      (if r = 0 then [] else '.' :: fracDigits 40 r q.den)

mutual

/-- `String(v)`: JavaScript string conversion; arrays join their
elements with commas, `null`/`undefined` elements joining as empty. -/
def jsToString : JSValue → List Char
  | .undefinedV => "undefined".toList
  | .null => "null".toList
  | .bool true => "true".toList
  | .bool false => "false".toList
  | .num n => jsNumToString n
  | .str s => s
  | .arr xs => jsArrToString xs
  | .obj _ => "[object Object]".toList

def jsArrToString : List JSValue → List Char
  | [] => []
  | [x] => jsElemToString x
  | x :: y :: xs => jsElemToString x ++ ',' :: jsArrToString (y :: xs)

/-- Array elements stringify like `String` except that `null` and
`undefined` join as the empty string. -/
def jsElemToString : JSValue → List Char
  | .undefinedV => []
  | .null => []
  | .bool true => "true".toList
  | .bool false => "false".toList
  | .num n => jsNumToString n
  | .str s => s
  | .arr xs => jsArrToString xs
  | .obj _ => "[object Object]".toList

end

/-- `parseFloat(v)`: non-strings are converted with `String` first; a
number converts to a string that reparses to the same number, so the
number case passes through. -/
def parseFloatJS (v : JSValue) : JSNum :=
  match v with
  | .num n => n
  | _ => parseFloatStr (jsToString v)

/-! ## Validators (server.js lines 134-146) -/

/-- `validateNumber(val, min, max)`: permissive string-to-float
conversion, rejecting NaN, non-finite and out-of-range results. -/
def validateNumber (val : JSValue) (lo hi : ℚ) : Option ℚ :=
  match parseFloatJS val with
  | .fin q => if q < lo ∨ q > hi then none else some q
  | _ => none

/-- `validateKeys(obj, allowedKeys)`: the value must be a truthy object
and every own key must belong to the allow-list. -/
def validateKeys (v : JSValue) (allowedKeys : List (List Char)) : Bool :=
  if truthy v = false ∨ jsTypeof v ≠ JSType.objectT then false
  else (objectKeys v).all (fun k => allowedKeys.contains k)

/-! ## Event records and the store (`analytics.json` shape) -/

structure VisitRec where
  timestamp : List Char
  sessionId : List Char
  userAgent : List Char
  screenSize : List Char
  referrer : List Char
deriving DecidableEq

structure SpinRec where
  timestamp : List Char
  sessionId : List Char
  bet : ℚ
  win : ℚ
  symbols : List (List Char)
deriving DecidableEq

structure FreeSpinsRec where
  timestamp : List Char
  sessionId : List Char
  mode : List Char
  totalWin : ℚ
  spinsCount : ℚ
deriving DecidableEq

structure BigWinRec where
  timestamp : List Char
  sessionId : List Char
  tier : List Char
  amount : ℚ
deriving DecidableEq

/-- The four per-kind sequences of the store, oldest first. -/
structure Analytics where
  visits : List VisitRec
  spins : List SpinRec
  freeSpins : List FreeSpinsRec
  bigWins : List BigWinRec
deriving DecidableEq

/-- The default state substituted by `readData` on any load failure. -/
def emptyAnalytics : Analytics := ⟨[], [], [], []⟩

/-- Outcome of attempting to load the persisted blob: a parsed state,
or any failure (missing file, parse error, I/O error). -/
inductive LoadResult where
  | ok (a : Analytics) : LoadResult
  | failure : LoadResult

/-- `readData()` (lines 104-113): the `try`/`catch` collapses every
failure into the empty default state. -/
def readData : LoadResult → Analytics
  | .ok a => a
  | .failure => emptyAnalytics

/-- `xs.push(x)` followed by `if (xs.length > cap) xs = xs.slice(-cap)`:
the retention pattern used for all four kinds. -/
def slidePush (cap : Nat) (xs : List α) (x : α) : List α :=
  let ys := xs ++ [x]
  if ys.length > cap then ys.drop (ys.length - cap) else ys

def pushVisit (xs : List VisitRec) (x : VisitRec) : List VisitRec := slidePush 10000 xs x

def pushSpin (xs : List SpinRec) (x : SpinRec) : List SpinRec := slidePush 50000 xs x

def pushFreeSpins (xs : List FreeSpinsRec) (x : FreeSpinsRec) : List FreeSpinsRec :=
  slidePush 5000 xs x

def pushBigWin (xs : List BigWinRec) (x : BigWinRec) : List BigWinRec := slidePush 5000 xs x

/-! ## The `/track` ingestion handler (server.js lines 156-276) -/

def etKey : List Char := "eventType".toList

def dataKey : List Char := "data".toList

def visitLit : List Char := "visit".toList

def spinLit : List Char := "spin".toList

def freeSpinsLit : List Char := "freeSpins".toList

def bigWinLit : List Char := "bigWin".toList

def visitFields : List (List Char) :=
  ["sessionId".toList, "userAgent".toList, "screenSize".toList, "referrer".toList]

def spinFields : List (List Char) :=
  ["sessionId".toList, "bet".toList, "win".toList, "symbols".toList]

def freeSpinsFields : List (List Char) :=
  ["sessionId".toList, "mode".toList, "totalWin".toList, "spinsCount".toList]

def bigWinFields : List (List Char) :=
  ["sessionId".toList, "tier".toList, "amount".toList]

/-- `EVENT_SCHEMAS[eventType]` as an own-property lookup (the
JavaScript object would additionally expose inherited `Object.prototype`
properties; no claim depends on that quirk). -/
def schemaOf (name : List Char) : Option (List (List Char)) :=
  if name = visitLit then some visitFields
  else if name = spinLit then some spinFields
  else if name = freeSpinsLit then some freeSpinsFields
  else if name = bigWinLit then some bigWinFields
  else none

/-- The structured rejection reasons of the `/track` handler. -/
inductive TrackError where
  | invalidRequest : TrackError
  | invalidEventType : TrackError
  | invalidData : TrackError
  | unknownEventType : TrackError
  | invalidDataFields : TrackError
  | missingSessionId : TrackError
  | invalidBetOrWin : TrackError
  | invalidTotalWin : TrackError
  | invalidAmount : TrackError
deriving DecidableEq

/-- The record built in the `visit` case (lines 197-203). -/
def mkVisit (data : JSValue) (ts : List Char) : VisitRec :=
  { timestamp := ts
    sessionId := sanitize (getField data ("sessionId".toList)) 50
    userAgent := sanitize (getField data ("userAgent".toList)) 300
    screenSize := sanitize (getField data ("screenSize".toList)) 20
    referrer := sanitize (getField data ("referrer".toList)) 200 }

/-- The record built in the `spin` case (lines 216-224). -/
def mkSpin (data : JSValue) (ts : List Char) (bet win : ℚ) : SpinRec :=
  { timestamp := ts
    sessionId := sanitize (getField data ("sessionId".toList)) 50
    bet := bet
    win := win
    symbols :=
      match getField data ("symbols".toList) with
      | .arr xs => (xs.take 18).map (fun s => sanitizeStr (jsToString s) 20)
      | _ => [] }

/-- The record built in the `freeSpins` case (lines 236-242); the
`|| 0` default maps the `null` of a failed `validateNumber` (and a
parsed `0`) to `0`. -/
def mkFreeSpins (data : JSValue) (ts : List Char) (w : ℚ) : FreeSpinsRec :=
  { timestamp := ts
    sessionId := sanitize (getField data ("sessionId".toList)) 50
    mode := sanitize (getField data ("mode".toList)) 20
    totalWin := w
    spinsCount := (validateNumber (getField data ("spinsCount".toList)) 0 100).getD 0 }

/-- The record built in the `bigWin` case (lines 254-261); an invalid
tier silently defaults to `"big"`. -/
def mkBigWin (data : JSValue) (ts : List Char) (amt : ℚ) : BigWinRec :=
  { timestamp := ts
    sessionId := sanitize (getField data ("sessionId".toList)) 50
    tier :=
      match getField data ("tier".toList) with
      | .str t =>
        if t = "big".toList ∨ t = "mega".toList ∨ t = "epic".toList then t else "big".toList
      | _ => "big".toList
    amount := amt }

/-- The `switch (eventType)` body (lines 192-267).  A name outside the
four cases falls through the switch and acknowledges without appending
(unreachable after the schema check in this model). -/
def handleEvent (name : List Char) (data : JSValue) (a : Analytics) (ts : List Char) :
    Except TrackError Analytics :=
  if name = visitLit then
    if truthy (getField data ("sessionId".toList)) = false then .error .missingSessionId
    else .ok { a with visits := pushVisit a.visits (mkVisit data ts) }
  else if name = spinLit then
    match validateNumber (getField data ("bet".toList)) 0 10000,
        validateNumber (getField data ("win".toList)) 0 10000000 with
    | some bet, some win => .ok { a with spins := pushSpin a.spins (mkSpin data ts bet win) }
    | _, _ => .error .invalidBetOrWin
  else if name = freeSpinsLit then
    match validateNumber (getField data ("totalWin".toList)) 0 10000000 with
    | some w => .ok { a with freeSpins := pushFreeSpins a.freeSpins (mkFreeSpins data ts w) }
    | none => .error .invalidTotalWin
  else if name = bigWinLit then
    match validateNumber (getField data ("amount".toList)) 0 10000000 with
    | some amt => .ok { a with bigWins := pushBigWin a.bigWins (mkBigWin data ts amt) }
    | none => .error .invalidAmount
  else .ok a

/-- The validation pipeline of `POST /track` (lines 157-267): structural
checks, envelope allow-list, event-type and data checks, per-kind schema
allow-list, then the switch.  Returns the mutated store or the
rejection reason. -/
def track (body : JSValue) (a : Analytics) (ts : List Char) : Except TrackError Analytics :=
  if truthy body = false ∨ jsTypeof body ≠ JSType.objectT then .error .invalidRequest
  else if validateKeys body [etKey, dataKey] = false then .error .invalidRequest
  else
    match getField body etKey with
    | .str name =>
      if name = [] then .error .invalidEventType
      else
        let data := getField body dataKey
        if truthy data = false ∨ jsTypeof data ≠ JSType.objectT then .error .invalidData
        else
          match schemaOf name with
          | none => .error .unknownEventType
          | some sch =>
            if validateKeys data sch = false then .error .invalidDataFields
            else handleEvent name data a ts
    | _ => .error .invalidEventType

/-- The write-through and response step (lines 269-270): `writeData`'s
boolean result is discarded, so the acknowledgment depends only on
validation; on rejection the store is left as read. -/
def trackEndpoint (_saveOk : Bool) (body : JSValue) (a : Analytics) (ts : List Char) :
    Bool × Analytics :=
  match track body a ts with
  | .error _ => (false, a)
  | .ok a2 => (true, a2)

/-! ## Retention: the sliding window (claim C1) -/

theorem slidePush_eq (cap : Nat) (xs : List α) (x : α) :
    slidePush cap xs x = (xs ++ [x]).drop (xs.length + 1 - cap) := by
  unfold slidePush
  by_cases h : (xs ++ [x]).length > cap
  · rw [if_pos h]
    simp
  · rw [if_neg h]
    have h2 : xs.length + 1 - cap = 0 := by simp at h; omega
    rw [h2, List.drop_zero]

theorem slidePush_length (cap : Nat) (xs : List α) (x : α) :
    (slidePush cap xs x).length = min (xs.length + 1) cap := by
  rw [slidePush_eq]
  simp
  omega

theorem foldl_slidePush (cap : Nat) (rs : List α) :
    ∀ init : List α, init.length ≤ cap →
      rs.foldl (slidePush cap) init = (init ++ rs).drop (init.length + rs.length - cap) := by
  induction rs with
  | nil =>
    intro init h
    simp [Nat.sub_eq_zero_of_le h]
  | cons x rs ih =>
    intro init h
    rw [List.foldl_cons, ih _ (by rw [slidePush_length]; omega)]
    rw [slidePush_length, slidePush_eq]
    rw [← List.drop_append_of_le_length (by simp)]
    rw [List.drop_drop]
    rw [List.append_assoc, List.singleton_append]
    congr 1
    simp
    omega

theorem foldl_slidePush_nil (cap : Nat) (rs : List α) :
    rs.foldl (slidePush cap) [] = rs.drop (rs.length - cap) := by
  simpa using foldl_slidePush cap rs [] (by simp)

theorem foldl_slidePush_window (cap : Nat) (rs : List α) :
    (rs.foldl (slidePush cap) []).length = min rs.length cap ∧
      rs.foldl (slidePush cap) [] = rs.drop (rs.length - cap) := by
  refine ⟨?_, foldl_slidePush_nil cap rs⟩
  rw [foldl_slidePush_nil]
  simp
  omega

/-- C1: for every event kind (Visit cap 10000, Spin cap 50000,
FreeSpinsRound cap 5000, BigWin cap 5000) and every sequence of
successful appends starting from the empty store, the stored sequence
always has exactly `min (appends) cap` records — so it never exceeds
the cap — and it equals the suffix of the appended records: the
most-recently-appended ones in their original relative order, the
oldest having been dropped. -/
theorem c1_retention_caps (rv : List VisitRec) (rs : List SpinRec)
    (rf : List FreeSpinsRec) (rb : List BigWinRec) :
    ((rv.foldl pushVisit []).length = min rv.length 10000 ∧
      rv.foldl pushVisit [] = rv.drop (rv.length - 10000)) ∧
    ((rs.foldl pushSpin []).length = min rs.length 50000 ∧
      rs.foldl pushSpin [] = rs.drop (rs.length - 50000)) ∧
    ((rf.foldl pushFreeSpins []).length = min rf.length 5000 ∧
      rf.foldl pushFreeSpins [] = rf.drop (rf.length - 5000)) ∧
    ((rb.foldl pushBigWin []).length = min rb.length 5000 ∧
      rb.foldl pushBigWin [] = rb.drop (rb.length - 5000)) :=
  ⟨foldl_slidePush_window 10000 rv, foldl_slidePush_window 50000 rs,
    foldl_slidePush_window 5000 rf, foldl_slidePush_window 5000 rb⟩

/-- C3: sanitization of a string input is idempotent, its output
contains none of the denylisted characters (angle brackets, quotes,
ampersand, backslash, ASCII controls 0x00-0x1F and 0x7F), and its
output length is at most the given maximum. -/
theorem c3_sanitize_contract (x : List Char) (m : Nat) :
    sanitize (.str (sanitize (.str x) m)) m = sanitize (.str x) m ∧
    (∀ c ∈ sanitize (.str x) m, isStripped c = false) ∧
    (sanitize (.str x) m).length ≤ m :=
  ⟨sanitizeStr_idem x m, sanitizeStr_not_stripped x m, sanitizeStr_length_le x m⟩

/-! ## Error handling of the ingestion path (claims C5, C10) -/

theorem sanitize_of_not_str : ∀ (v : JSValue) (m : Nat), (∀ s, v ≠ .str s) → sanitize v m = []
  | .undefinedV, _, _ => rfl
  | .null, _, _ => rfl
  | .bool _, _, _ => rfl
  | .num _, _, _ => rfl
  | .str s, _, h => absurd rfl (h s)
  | .arr _, _, _ => rfl
  | .obj _, _, _ => rfl

/-- C5: a failed load of persisted state yields the empty default state
(four empty sequences); and the `/track` acknowledgment never depends
on whether the save succeeded — a validated, appended event is
acknowledged as success even when `writeData` fails. -/
theorem c5_best_effort_durability :
    readData .failure = emptyAnalytics ∧
    (∀ (s1 s2 : Bool) (body : JSValue) (a : Analytics) (ts : List Char),
      trackEndpoint s1 body a ts = trackEndpoint s2 body a ts) ∧
    (∀ (saveOk : Bool) (body : JSValue) (a a2 : Analytics) (ts : List Char),
      track body a ts = .ok a2 → trackEndpoint saveOk body a ts = (true, a2)) := by
  refine ⟨rfl, fun s1 s2 body a ts => rfl, fun saveOk body a a2 ts h => ?_⟩
  simp [trackEndpoint, h]

theorem c5_best_effort_durability_witness :
    trackEndpoint false
        (.obj [(etKey, .str visitLit), (dataKey, .obj [("sessionId".toList, .str ['a'])])])
        emptyAnalytics [] =
      (true, { emptyAnalytics with visits := [⟨[], ['a'], [], [], []⟩] }) :=
  c5_best_effort_durability.2.2 false _ emptyAnalytics _ [] rfl

/-- C10: a Visit ingestion whose `data.sessionId` is a truthy
non-string value passes validation (only truthiness is checked), and
the stored record's `sessionId` is the empty string, because `sanitize`
maps every non-string input to the empty string. -/
theorem c10_truthy_nonstring_sessionId (a : Analytics) (ts : List Char) (sid : JSValue)
    (htruthy : truthy sid = true) (hnotstr : ∀ s, sid ≠ .str s) :
    track (.obj [(etKey, .str visitLit), (dataKey, .obj [("sessionId".toList, sid)])]) a ts =
      .ok { a with visits := pushVisit a.visits ⟨ts, [], [], [], []⟩ } := by
  have hsan : sanitize sid 50 = [] := sanitize_of_not_str sid 50 hnotstr
  show (if truthy sid = false then (.error .missingSessionId : Except TrackError Analytics)
      else .ok { a with
        visits := pushVisit a.visits (mkVisit (.obj [("sessionId".toList, sid)]) ts) }) =
    .ok { a with visits := pushVisit a.visits ⟨ts, [], [], [], []⟩ }
  rw [htruthy]
  have hsan2 : sanitize (getField (JSValue.obj [("sessionId".toList, sid)])
      ("sessionId".toList)) 50 = [] := hsan
  simp only [Bool.true_eq_false, if_false, mkVisit, hsan2]
  rfl

theorem c10_truthy_nonstring_sessionId_witness :
    track (.obj [(etKey, .str visitLit),
        (dataKey, .obj [("sessionId".toList, .num (.fin 1))])]) emptyAnalytics [] =
      .ok { emptyAnalytics with visits := [⟨[], [], [], [], []⟩] } :=
  c10_truthy_nonstring_sessionId emptyAnalytics [] (.num (.fin 1)) (by decide)
    (fun s h => JSValue.noConfusion h)

/-! ## Rejection paths of `/track` (claims C2, C4) -/

theorem track_err_structure (body : JSValue) (a : Analytics) (ts : List Char)
    (h : truthy body = false ∨ jsTypeof body ≠ JSType.objectT) :
    track body a ts = .error .invalidRequest := by
  unfold track
  rw [if_pos h]

theorem track_err_envelope (body : JSValue) (a : Analytics) (ts : List Char)
    (h1 : ¬(truthy body = false ∨ jsTypeof body ≠ JSType.objectT))
    (h2 : validateKeys body [etKey, dataKey] = false) :
    track body a ts = .error .invalidRequest := by
  unfold track
  rw [if_neg h1, if_pos h2]

theorem track_err_empty_name (body : JSValue) (a : Analytics) (ts : List Char)
    (h1 : ¬(truthy body = false ∨ jsTypeof body ≠ JSType.objectT))
    (h2 : ¬(validateKeys body [etKey, dataKey] = false))
    (hET : getField body etKey = .str []) :
    track body a ts = .error .invalidEventType := by
  unfold track
  rw [if_neg h1, if_neg h2, hET]
  dsimp only
  rw [if_pos rfl]

/-- After the structural and envelope checks pass and the event type is
a nonempty string, `track` reduces to the data checks, the schema
lookup, the per-kind allow-list and the switch. -/
theorem track_main (body : JSValue) (a : Analytics) (ts : List Char) (name : List Char)
    (h1 : ¬(truthy body = false ∨ jsTypeof body ≠ JSType.objectT))
    (h2 : ¬(validateKeys body [etKey, dataKey] = false))
    (hET : getField body etKey = .str name)
    (hname : ¬(name = [])) :
    track body a ts =
      (if truthy (getField body dataKey) = false ∨
          jsTypeof (getField body dataKey) ≠ JSType.objectT then .error .invalidData
        else
          match schemaOf name with
          | none => .error .unknownEventType
          | some sch =>
            if validateKeys (getField body dataKey) sch = false then .error .invalidDataFields
            else handleEvent name (getField body dataKey) a ts) := by
  unfold track
  rw [if_neg h1, if_neg h2, hET]
  dsimp only
  rw [if_neg hname]

/-- C4: `validateNumber` accepts exactly the values whose permissive
string-to-float conversion is finite and in range; and a `spin`
ingestion whose `bet` or `win` fails that check is rejected with a
client error, leaving the store untouched (in particular
`data:{bet:"abc"}`, exercised by the witness). -/
theorem c4_spin_numeric_validation :
    (∀ (v : JSValue) (lo hi q : ℚ), validateNumber v lo hi = some q →
      parseFloatJS v = .fin q ∧ lo ≤ q ∧ q ≤ hi) ∧
    (∀ (body : JSValue) (a : Analytics) (ts : List Char) (saveOk : Bool),
      getField body etKey = .str spinLit →
      (validateNumber (getField (getField body dataKey) ("bet".toList)) 0 10000 = none ∨
        validateNumber (getField (getField body dataKey) ("win".toList)) 0 10000000 = none) →
      (∃ e, track body a ts = .error e) ∧ trackEndpoint saveOk body a ts = (false, a)) := by
  constructor
  · intro v lo hi q h
    unfold validateNumber at h
    rcases hp : parseFloatJS v with _ | _ | _ | r <;> rw [hp] at h <;> dsimp only at h
    · exact absurd h (by simp)
    · exact absurd h (by simp)
    · exact absurd h (by simp)
    · by_cases hr : r < lo ∨ r > hi
      · rw [if_pos hr] at h
        exact absurd h (by simp)
      · rw [if_neg hr] at h
        obtain rfl : r = q := Option.some.inj h
        push_neg at hr
        exact ⟨rfl, hr.1, hr.2⟩
  · intro body a ts saveOk hev hnum
    have htr : ∃ e, track body a ts = .error e := by
      by_cases h1 : truthy body = false ∨ jsTypeof body ≠ JSType.objectT
      · exact ⟨_, track_err_structure body a ts h1⟩
      by_cases h2 : validateKeys body [etKey, dataKey] = false
      · exact ⟨_, track_err_envelope body a ts h1 h2⟩
      have hmain := track_main body a ts spinLit h1 h2 hev (by decide)
      by_cases h3 : truthy (getField body dataKey) = false ∨
          jsTypeof (getField body dataKey) ≠ JSType.objectT
      · exact ⟨_, by rw [hmain, if_pos h3]⟩
      rw [if_neg h3, show schemaOf spinLit = some spinFields from rfl] at hmain
      dsimp only at hmain
      by_cases h4 : validateKeys (getField body dataKey) spinFields = false
      · rw [if_pos h4] at hmain
        exact ⟨_, hmain⟩
      rw [if_neg h4] at hmain
      unfold handleEvent at hmain
      rw [if_neg (by decide : ¬(spinLit = visitLit)), if_pos rfl] at hmain
      rcases hb : validateNumber (getField (getField body dataKey) ("bet".toList)) 0 10000
          with _ | qb <;>
        rcases hw : validateNumber (getField (getField body dataKey) ("win".toList)) 0 10000000
            with _ | qw <;>
        rw [hb, hw] at hmain
      · exact ⟨_, hmain.trans rfl⟩
      · exact ⟨_, hmain.trans rfl⟩
      · exact ⟨_, hmain.trans rfl⟩
      · rcases hnum with hx | hx
        · rw [hb] at hx
          exact absurd hx (by simp)
        · rw [hw] at hx
          exact absurd hx (by simp)
    obtain ⟨e, he⟩ := htr
    exact ⟨⟨e, he⟩, by simp [trackEndpoint, he]⟩

theorem c4_spin_numeric_validation_witness :
    (∃ e, track (.obj [(etKey, .str spinLit),
        (dataKey, .obj [("bet".toList, .str "abc".toList)])]) emptyAnalytics [] = .error e) ∧
      trackEndpoint true (.obj [(etKey, .str spinLit),
        (dataKey, .obj [("bet".toList, .str "abc".toList)])]) emptyAnalytics [] =
        (false, emptyAnalytics) :=
  c4_spin_numeric_validation.2 _ emptyAnalytics [] true rfl (Or.inl (by rfl))

/-- C2: any envelope with a top-level key other than `eventType`/`data`,
and any request whose `data` holds a key outside the event kind's
allow-list, is rejected with a client error and appends nothing —
a strict allow-list, not silent dropping. -/
theorem c2_strict_allow_list (body : JSValue) (a : Analytics) (ts : List Char) (saveOk : Bool)
    (h : (∃ k ∈ objectKeys body, k ∉ [etKey, dataKey]) ∨
      (∃ name sch, getField body etKey = .str name ∧ schemaOf name = some sch ∧
        ∃ k ∈ objectKeys (getField body dataKey), k ∉ sch)) :
    (∃ e, track body a ts = .error e) ∧ trackEndpoint saveOk body a ts = (false, a) := by
  have htr : ∃ e, track body a ts = .error e := by
    by_cases h1 : truthy body = false ∨ jsTypeof body ≠ JSType.objectT
    · exact ⟨_, track_err_structure body a ts h1⟩
    by_cases h2 : validateKeys body [etKey, dataKey] = false
    · exact ⟨_, track_err_envelope body a ts h1 h2⟩
    rcases h with ⟨k, hk, hknot⟩ | ⟨name, sch, hET, hsch, k, hk, hknot⟩
    · exfalso
      apply h2
      unfold validateKeys
      rw [if_neg h1]
      rw [List.all_eq_false]
      exact ⟨k, hk, by simp [hknot]⟩
    · by_cases hname : name = []
      · subst hname
        exact ⟨_, track_err_empty_name body a ts h1 h2 hET⟩
      have hmain := track_main body a ts name h1 h2 hET hname
      by_cases h3 : truthy (getField body dataKey) = false ∨
          jsTypeof (getField body dataKey) ≠ JSType.objectT
      · exact ⟨_, by rw [hmain, if_pos h3]⟩
      rw [if_neg h3, hsch] at hmain
      dsimp only at hmain
      have hvk : validateKeys (getField body dataKey) sch = false := by
        unfold validateKeys
        rw [if_neg h3]
        rw [List.all_eq_false]
        exact ⟨k, hk, by simp [hknot]⟩
      rw [if_pos hvk] at hmain
      exact ⟨_, hmain⟩
  obtain ⟨e, he⟩ := htr
  exact ⟨⟨e, he⟩, by simp [trackEndpoint, he]⟩

theorem c2_strict_allow_list_witness :
    ((∃ e, track (.obj [(etKey, .str visitLit), (dataKey, .obj []),
        ("extra".toList, .null)]) emptyAnalytics [] = .error e) ∧
      trackEndpoint true (.obj [(etKey, .str visitLit), (dataKey, .obj []),
        ("extra".toList, .null)]) emptyAnalytics [] = (false, emptyAnalytics)) ∧
    ((∃ e, track (.obj [(etKey, .str visitLit),
        (dataKey, .obj [("bogus".toList, .str ['x'])])]) emptyAnalytics [] = .error e) ∧
      trackEndpoint true (.obj [(etKey, .str visitLit),
        (dataKey, .obj [("bogus".toList, .str ['x'])])]) emptyAnalytics [] =
        (false, emptyAnalytics)) :=
  ⟨c2_strict_allow_list _ emptyAnalytics [] true
      (Or.inl ⟨"extra".toList, by decide⟩),
    c2_strict_allow_list _ emptyAnalytics [] true
      (Or.inr ⟨visitLit, visitFields, rfl, rfl, "bogus".toList, by decide⟩)⟩

/-! ## Aggregation: `GET /stats` (server.js lines 278-345) -/

/-- One step of the `symbolCounts` accumulation: increment `sym`'s
count in place, or create a fresh property at the end — this list keeps
the object's property *creation* order; the enumeration order that
`Object.entries` exposes is recovered by `jsEntries` below.  Property
keys are modelled as plain data: inherited-property quirks (a symbol
sanitizing to a name like `constructor`) are outside the model, as with
`schemaOf`. -/
def bumpCount (acc : List (List Char × Nat)) (sym : List Char) : List (List Char × Nat) :=
  match acc with
  | [] => [(sym, 1)]
  | (k, n) :: rest => if k = sym then (k, n + 1) :: rest else (k, n) :: bumpCount rest sym

/-- The nested `forEach` over spins and their symbols (lines 292-299). -/
def tallySymbols (spins : List SpinRec) : List (List Char × Nat) :=
  spins.foldl (fun acc s => s.symbols.foldl bumpCount acc) []

/-- An ECMAScript array-index key: a canonical decimal numeral (digits
only, no leading zero except `"0"` itself) whose value is below
2^32 - 1.  Property enumeration lists these before every other string
key, in ascending numeric order. -/
def isArrayIdx : List Char → Bool
  | [] => false
  | c :: rest =>
    (c :: rest).all isDigitCh && (decide (c ≠ '0') || rest.isEmpty) &&
      decide (digitsToNat (c :: rest) < 4294967295)

/-- Ascending numeric value of the keys, the enumeration order of the
array-index-like properties. -/
def numIdxLe (p q : List Char × Nat) : Prop := digitsToNat p.1 ≤ digitsToNat q.1

instance : DecidableRel numIdxLe :=
  fun p q => inferInstanceAs (Decidable (digitsToNat p.1 ≤ digitsToNat q.1))

instance : IsTotal (List Char × Nat) numIdxLe :=
  ⟨fun a b => Nat.le_total (digitsToNat a.1) (digitsToNat b.1)⟩

instance : IsTrans (List Char × Nat) numIdxLe :=
  ⟨fun _ _ _ hab hbc => Nat.le_trans hab hbc⟩

/-- `Object.entries(symbolCounts)` (line 300): ECMAScript enumerates
array-index-like keys first, in ascending numeric order, then the
remaining string keys in property creation order. -/
def jsEntries (m : List (List Char × Nat)) : List (List Char × Nat) :=
  List.insertionSort numIdxLe (m.filter (fun p => isArrayIdx p.1)) ++
    m.filter (fun p => !(isArrayIdx p.1))

/-- The comparator `(a, b) => b[1] - a[1]` of line 301, read as the
stay-before relation of the (stable, per ES2019) `Array.prototype.sort`:
descending by count, equal counts keeping the enumeration order. -/
def countGe (p q : List Char × Nat) : Prop := q.2 ≤ p.2

instance : DecidableRel countGe := fun p q => inferInstanceAs (Decidable (q.2 ≤ p.2))

instance : IsTotal (List Char × Nat) countGe := ⟨fun a b => le_total b.2 a.2⟩

instance : IsTrans (List Char × Nat) countGe := ⟨fun _ _ _ hab hbc => le_trans hbc hab⟩

/-- `Object.entries(symbolCounts).sort((a,b) => b[1]-a[1])` (lines
300-301): the enumeration-ordered entries, stably sorted by count. -/
def sortedTally (spins : List SpinRec) : List (List Char × Nat) :=
  List.insertionSort countGe (jsEntries (tallySymbols spins))

/-- `topSymbols` (lines 300-302): the sorted tally truncated to 10. -/
def topSymbols (spins : List SpinRec) : List (List Char × Nat) :=
  (sortedTally spins).take 10

/-- The response of `GET /stats`; the time-dependent fields
(`spinsByHour`, `lastUpdated`) are outside the embedding, and the
`toFixed(2)` presentation is kept as the exact rational. -/
structure Stats where
  totalVisits : Nat
  uniqueSessions : Nat
  totalSpins : Nat
  totalWagered : ℚ
  totalWon : ℚ
  houseEdge : ℚ
  avgBet : ℚ
  topSymbols : List (List Char × Nat)
  bigWinCounts : Nat × Nat × Nat
  fsTriggerRate : ℚ

/-- The aggregate computation of `GET /stats` (lines 281-324). -/
def getStats (a : Analytics) : Stats :=
  let totalSpins := a.spins.length
  let totalWagered : ℚ := a.spins.foldl (fun sum s => sum + s.bet) 0
  let totalWon : ℚ := a.spins.foldl (fun sum s => sum + s.win) 0
  { totalVisits := a.visits.length
    uniqueSessions := (a.visits.map VisitRec.sessionId).dedup.length
    totalSpins := totalSpins
    totalWagered := totalWagered
    totalWon := totalWon
    houseEdge := if totalWagered > 0 then (totalWagered - totalWon) / totalWagered * 100 else 0
    avgBet := if totalSpins > 0 then totalWagered / (totalSpins : ℚ) else 0
    topSymbols := topSymbols a.spins
    bigWinCounts := ((a.bigWins.filter (fun w => w.tier = "big".toList)).length,
      (a.bigWins.filter (fun w => w.tier = "mega".toList)).length,
      (a.bigWins.filter (fun w => w.tier = "epic".toList)).length)
    fsTriggerRate :=
      if totalSpins > 0 then (a.freeSpins.length : ℚ) / (totalSpins : ℚ) * 100 else 0 }

/-- The request sequencing of repeated `POST /track` calls: a rejected
request leaves the store unchanged. -/
def runTrack (bodies : List JSValue) (a0 : Analytics) : Analytics :=
  bodies.foldl (fun a b =>
    match track b a [] with
    | .ok a2 => a2
    | .error _ => a) a0

/-- A well-formed spin ingestion body with numeric bet and win. -/
def spinBody (b w : ℚ) : JSValue :=
  .obj [(etKey, .str spinLit),
    (dataKey, .obj [("bet".toList, .num (.fin b)), ("win".toList, .num (.fin w))])]

/-- C8: the guarded metrics are 0 — not NaN or Infinity, which do not
arise in the exact-rational model precisely because of these guards —
when their denominator is zero: `houseEdge` at zero total wagered,
`avgBet` and `fsTriggerRate` at zero spins. -/
theorem c8_zero_denominators (a : Analytics) :
    ((getStats a).totalWagered = 0 → (getStats a).houseEdge = 0) ∧
    ((getStats a).totalSpins = 0 →
      (getStats a).avgBet = 0 ∧ (getStats a).fsTriggerRate = 0) := by
  unfold getStats
  dsimp only
  constructor
  · intro h
    rw [h]
    simp
  · intro h
    rw [h]
    simp

theorem c8_zero_denominators_witness :
    (getStats emptyAnalytics).houseEdge = 0 ∧ (getStats emptyAnalytics).avgBet = 0 ∧
      (getStats emptyAnalytics).fsTriggerRate = 0 :=
  ⟨(c8_zero_denominators emptyAnalytics).1 rfl,
    ((c8_zero_denominators emptyAnalytics).2 rfl).1,
    ((c8_zero_denominators emptyAnalytics).2 rfl).2⟩

/-- C7: from the empty store, three Spin appends of bet 10 / win 0 and
one of bet 10 / win 100 give totalWagered 40, totalWon 100, and
houseEdge (40-100)/40*100 = -150 (rendered -150.00 by toFixed(2)). -/
theorem c7_house_edge_example :
    (getStats (runTrack [spinBody 10 0, spinBody 10 0, spinBody 10 0, spinBody 10 100]
        emptyAnalytics)).totalSpins = 4 ∧
    (getStats (runTrack [spinBody 10 0, spinBody 10 0, spinBody 10 0, spinBody 10 100]
        emptyAnalytics)).totalWagered = 40 ∧
    (getStats (runTrack [spinBody 10 0, spinBody 10 0, spinBody 10 0, spinBody 10 100]
        emptyAnalytics)).totalWon = 100 ∧
    (getStats (runTrack [spinBody 10 0, spinBody 10 0, spinBody 10 0, spinBody 10 100]
        emptyAnalytics)).houseEdge = -150 := by
  have hrun : runTrack [spinBody 10 0, spinBody 10 0, spinBody 10 0, spinBody 10 100]
      emptyAnalytics =
      ⟨[], [⟨[], [], 10, 0, []⟩, ⟨[], [], 10, 0, []⟩, ⟨[], [], 10, 0, []⟩,
        ⟨[], [], 10, 100, []⟩], [], []⟩ := by
    rfl
  rw [hrun]
  unfold getStats
  dsimp only
  norm_num [List.foldl, topSymbols, sortedTally, tallySymbols, List.dedup]

/-! ## `topSymbols` correctness (claim C6) -/

/-- Hexadecimal digit value, for `parseInt`'s `0x` prefix handling. -/
def digitVal16 (c : Char) : Option Nat :=
  if 48 ≤ c.toNat ∧ c.toNat ≤ 57 then some (c.toNat - 48)
  else if 97 ≤ c.toNat ∧ c.toNat ≤ 102 then some (c.toNat - 87)
  else if 65 ≤ c.toNat ∧ c.toNat ≤ 70 then some (c.toNat - 55)
  else none

/-- `parseInt(s)` with no radix: whitespace, optional sign, an optional
`0x`/`0X` hexadecimal prefix, then the longest digit run; `none` models
`NaN` (no digits). -/
def parseIntStr (s : List Char) : Option Int :=
  let t := s.dropWhile isWS
  let (sgn, t2) : Int × List Char :=
    match t with
    | c :: r => if c = '-' then (-1, r) else if c = '+' then (1, r) else (1, t)
    | [] => (1, [])
  match t2 with
  | '0' :: x :: r =>
    if x = 'x' ∨ x = 'X' then
      let hex := r.takeWhile (fun c => (digitVal16 c).isSome)
      if hex = [] then none
      else some (sgn * (hex.foldl (fun acc c => acc * 16 + (digitVal16 c).getD 0) 0 : Nat))
    else
      let ds := ('0' :: x :: r).takeWhile isDigitCh
      if ds = [] then none else some (sgn * (digitsToNat ds : Int))
  | _ =>
    let ds := t2.takeWhile isDigitCh
    if ds = [] then none else some (sgn * (digitsToNat ds : Int))

/-- `parseInt` on an optional query parameter; an absent parameter is
`undefined`, whose string `"undefined"` parses to `NaN`. -/
def parseIntQ (q : Option (List Char)) : Option Int :=
  match q with
  | some s => parseIntStr s
  | none => none

/-- `Math.min(Math.max(1, parseInt(req.query.limit) || 50), 200)`,
repeated verbatim at lines 351, 399 and 424: note `|| 50` also fires
when the parse result is the falsy `0`. -/
def clampLimit (q : Option (List Char)) : Int :=
  min (max 1 (match parseIntQ q with
    | some n => if n = 0 then 50 else n
    | none => 50)) 200

/-- `Math.max(1, parseInt(req.query.page) || 1)` (line 398). -/
def effPage (q : Option (List Char)) : Int :=
  max 1 (match parseIntQ q with
    | some n => if n = 0 then 1 else n
    | none => 1)

/-- The response of `GET /spins`. -/
structure SpinsPage where
  spins : List SpinRec
  page : Int
  limit : Int
  total : Nat
  totalPages : Int

/-- `GET /spins` (lines 395-413): most-recent-first slice for the
1-indexed page, with total count and `Math.ceil(total / limit)`. -/
def spinsEndpoint (a : Analytics) (pageQ limitQ : Option (List Char)) : SpinsPage :=
  let page := effPage pageQ
  let limit := clampLimit limitQ
  let offset := (page - 1) * limit
  { spins := ((a.spins.reverse).drop offset.toNat).take limit.toNat
    page := page
    limit := limit
    total := a.spins.length
    totalPages := ⌈(a.spins.length : ℚ) / (limit : ℚ)⌉ }

/-- `GET /bigwins` (lines 421-436): reversed copy, first `limit`. -/
def bigWinsEndpoint (a : Analytics) (limitQ : Option (List Char)) : List BigWinRec :=
  (a.bigWins.reverse).take (clampLimit limitQ).toNat

/-- The per-session accumulator of `GET /sessions` (lines 354-376). -/
structure SessionAgg where
  sessionId : List Char
  startTime : List Char
  userAgent : List Char
  screenSize : List Char
  spins : Nat
  wagered : ℚ
  won : ℚ

/-- First Visit wins: later visits with the same sessionId are ignored
(`if (!sessionMap[v.sessionId])`). -/
def addVisitToMap (m : List (List Char × SessionAgg)) (v : VisitRec) :
    List (List Char × SessionAgg) :=
  if (m.lookup v.sessionId).isSome then m
  else m ++ [(v.sessionId, ⟨v.sessionId, v.timestamp, v.userAgent, v.screenSize, 0, 0, 0⟩)]

/-- `sessionMap[s.sessionId].spins++` and the wagered/won updates. -/
def bumpSession (agg : SessionAgg) (s : SpinRec) : SessionAgg :=
  { agg with
    spins := agg.spins + 1
    wagered := agg.wagered + s.bet
    won := agg.won + s.win }

/-- Spins update an existing session entry in place. -/
def addSpinToMap (m : List (List Char × SessionAgg)) (s : SpinRec) :
    List (List Char × SessionAgg) :=
  m.map (fun kv => if kv.1 = s.sessionId then (kv.1, bumpSession kv.2 s) else kv)

/-- `haystack.includes(needle)` on strings: some suffix of the haystack
starts with the needle. -/
def includesStr (needle : List Char) : List Char → Bool
  | [] => needle.isPrefixOf []
  | c :: t => needle.isPrefixOf (c :: t) || includesStr needle t

/-- Lexicographic order on timestamps; the server-assigned fixed-width
ISO-8601 strings order lexicographically exactly as the comparator
`new Date(b.startTime) - new Date(a.startTime)` orders their dates. -/
def tsLt : List Char → List Char → Bool
  | [], [] => false
  | [], _ :: _ => true
  | _ :: _, [] => false
  | a :: as, b :: bs =>
    if a.toNat < b.toNat then true else if b.toNat < a.toNat then false else tsLt as bs

/-- Stay-before relation of the sessions sort: descending start time. -/
def startDesc (s1 s2 : SessionAgg) : Prop := tsLt s1.startTime s2.startTime = false

instance : DecidableRel startDesc :=
  fun s1 s2 => inferInstanceAs (Decidable (tsLt s1.startTime s2.startTime = false))

/-- A row of the `GET /sessions` response. -/
structure SessionOut where
  sessionId : List Char
  startTime : List Char
  userAgent : List Char
  screenSize : List Char
  spins : Nat
  wagered : ℚ
  won : ℚ
  netResult : ℚ
  device : List Char

/-- `GET /sessions` (lines 347-392): group visits and spins by session,
sort by start time descending, truncate to the clamped limit, decorate
with net result and device class. -/
def sessionsEndpoint (a : Analytics) (limitQ : Option (List Char)) : List SessionOut :=
  let limit := clampLimit limitQ
  let m1 := a.spins.foldl addSpinToMap (a.visits.foldl addVisitToMap [])
  let sessions := List.insertionSort startDesc (m1.map Prod.snd)
  (sessions.take limit.toNat).map (fun s =>
    ⟨s.sessionId, s.startTime, s.userAgent, s.screenSize, s.spins, s.wagered, s.won,
      s.won - s.wagered,
      if s.userAgent ≠ [] ∧ includesStr ("Mobile".toList) s.userAgent = true
      then "Mobile".toList else "Desktop".toList⟩)

/-- C9 as stated is false on the code: a supplied limit that parses to
`0` is falsy, so `parseInt(..) || 50` falls back to the default `50`
instead of the claimed clamp `min (max 1 0) 200 = 1`. -/
theorem c9_counterexample_limit_zero :
    parseIntQ (some ['0']) = some 0 ∧
    clampLimit (some ['0']) = 50 ∧
    min (max (1 : Int) 0) 200 = 1 ∧
    clampLimit (some ['0']) ≠ min (max (1 : Int) 0) 200 :=
  ⟨rfl, rfl, rfl, by decide⟩

/-- C9 amended: the three endpoints share one effective-limit
computation, which equals the supplied limit clamped to `[1, 200]`
whenever the supplied value parses to a nonzero integer, and defaults
to 50 when the limit is absent, unparsable, or parses to 0; the
effective page is always at least 1 with default 1; the spins query
returns the most-recent-first slice for that page together with the
total record count and the (ceiling) total page count; the big-wins
and sessions responses are truncated to the same clamped limit. -/
theorem c9_query_clamping :
    (∀ q, 1 ≤ clampLimit q ∧ clampLimit q ≤ 200) ∧
    clampLimit none = 50 ∧
    (∀ q n, parseIntQ q = some n → n ≠ 0 → clampLimit q = min (max 1 n) 200) ∧
    (effPage none = 1 ∧ ∀ q, 1 ≤ effPage q) ∧
    (∀ a pageQ limitQ,
      (spinsEndpoint a pageQ limitQ).total = a.spins.length ∧
      (spinsEndpoint a pageQ limitQ).page = effPage pageQ ∧
      (spinsEndpoint a pageQ limitQ).limit = clampLimit limitQ ∧
      (spinsEndpoint a pageQ limitQ).spins =
        ((a.spins.reverse).drop (((effPage pageQ - 1) * clampLimit limitQ).toNat)).take
          (clampLimit limitQ).toNat ∧
      (spinsEndpoint a pageQ limitQ).spins.length ≤ (clampLimit limitQ).toNat ∧
      (a.spins.length : ℚ) / (clampLimit limitQ : ℚ) ≤
        ((spinsEndpoint a pageQ limitQ).totalPages : ℚ) ∧
      ((spinsEndpoint a pageQ limitQ).totalPages : ℚ) <
        (a.spins.length : ℚ) / (clampLimit limitQ : ℚ) + 1) ∧
    (∀ a limitQ, bigWinsEndpoint a limitQ = (a.bigWins.reverse).take (clampLimit limitQ).toNat ∧
      (bigWinsEndpoint a limitQ).length ≤ (clampLimit limitQ).toNat) ∧
    (∀ a limitQ, (sessionsEndpoint a limitQ).length ≤ (clampLimit limitQ).toNat) := by
  refine ⟨?_, rfl, ?_, ⟨rfl, ?_⟩, ?_, ?_, ?_⟩
  · intro q
    unfold clampLimit
    rcases parseIntQ q with _ | n
    · constructor <;> simp
    · dsimp only
      by_cases hn : n = 0
      · rw [if_pos hn]
        constructor <;> simp
      · rw [if_neg hn]
        omega
  · intro q n h hn
    unfold clampLimit
    rw [h]
    dsimp only
    rw [if_neg hn]
  · intro q
    unfold effPage
    rcases parseIntQ q with _ | n
    · simp
    · dsimp only
      by_cases hn : n = 0
      · rw [if_pos hn]
        simp
      · rw [if_neg hn]
        omega
  · intro a pageQ limitQ
    refine ⟨rfl, rfl, rfl, rfl, ?_, ?_, ?_⟩
    · calc (spinsEndpoint a pageQ limitQ).spins.length
          ≤ (clampLimit limitQ).toNat := by
            simp [spinsEndpoint]
      _ = (clampLimit limitQ).toNat := rfl
    · exact Int.le_ceil _
    · exact Int.ceil_lt_add_one _
  · intro a limitQ
    refine ⟨rfl, ?_⟩
    simp [bigWinsEndpoint]
  · intro a limitQ
    simp [sessionsEndpoint]

theorem c9_query_clamping_witness :
    clampLimit (some ['7']) = min (max 1 7) 200 ∧ min (max (1 : Int) 7) 200 = 7 :=
  ⟨c9_query_clamping.2.2.1 (some ['7']) 7 rfl (by decide), by decide⟩

end Slots
